import Mathlib

/-!
Verification of the spaced-repetition progress core of the japanese_study
repository.

The source file `flashcard_generation/add_ids_and_progress.py` provides the
initial progress-record shape (`create_progress_entry`), the plain JSON write
(`save_json`) and the id-assignment loop in `main`.  The ReviewScheduler
operations (`update`, `isDue`) and the ProgressStore `bootstrap` operation are
specified but absent from the source; they are modelled here from the spec's
words (each such definition says so in its doc comment).  Timestamps are
modelled at day granularity as natural numbers, matching the spec's statement
that the time-of-day component is not used.
-/

namespace JapaneseStudy

/-- One spaced-repetition progress record.  Fields carry the names and layout
of the JSON object built by `create_progress_entry` in
`flashcard_generation/add_ids_and_progress.py` (spec section 6 uses the same
layout).  `ease_factor` is modelled as a rational number; `date_last_studied`
is a day number or `none`. -/
structure ProgressRecord where
  id : Nat
  date_last_studied : Option Nat
  num_times_studied : Nat
  ease_factor : ℚ
  interval : Nat
  repetitions : Nat
  total_correct : Nat
  total_incorrect : Nat
  total_studied : Nat
  total_correct_streak : Nat
  total_incorrect_streak : Nat
deriving DecidableEq

/-- Translation of `create_progress_entry(card_id)` from
`flashcard_generation/add_ids_and_progress.py` lines 22-36: the initial
progress entry for a flashcard. -/
def create_progress_entry (card_id : Nat) : ProgressRecord :=
  { id := card_id
    date_last_studied := none
    num_times_studied := 0
    ease_factor := 2.5
    interval := 1
    repetitions := 0
    total_correct := 0
    total_incorrect := 0
    total_studied := 0
    total_correct_streak := 0
    total_incorrect_streak := 0 }

/-- Minimum ease factor, spec section 3: `minEase = 1.3`. -/
def minEase : ℚ := 1.3

/-- Rounding to the nearest integer (half rounds up): the `round` used by the
spec's interval recomputation. -/
def roundq (x : ℚ) : ℤ := ⌊x + 1 / 2⌋

/-- Modelled from the spec: the ReviewScheduler `update` operation of spec
section 4.2, which is missing from the source (the source only creates the
initial record shape).  On a correct answer: the repetition streak grows by
one, the interval is 1 at streak 1, 6 at streak 2 and
`round(previousIntervalDays * easeFactor)` afterwards, the ease factor gains
the fixed bonus 0.1 and is clamped to `minEase`.  On an incorrect answer: the
repetition streak resets, the interval is forced to 1, the ease factor loses
the fixed penalty 0.2 and is clamped to `minEase`.  Both paths bump the
lifetime counters, swap the streak counters and stamp `date_last_studied`. -/
def update (r : ProgressRecord) (correct : Bool) (now : Nat) : ProgressRecord :=
  if correct then
    { r with
      repetitions := r.repetitions + 1
      interval :=
        if r.repetitions + 1 = 1 then 1
        else if r.repetitions + 1 = 2 then 6
        else (roundq ((r.interval : ℚ) * r.ease_factor)).toNat
      ease_factor := max minEase (r.ease_factor + 0.1)
      total_correct := r.total_correct + 1
      total_studied := r.total_studied + 1
      total_correct_streak := r.total_correct_streak + 1
      total_incorrect_streak := 0
      num_times_studied := r.num_times_studied + 1
      date_last_studied := some now }
  else
    { r with
      repetitions := 0
      interval := 1
      ease_factor := max minEase (r.ease_factor - 0.2)
      total_incorrect := r.total_incorrect + 1
      total_studied := r.total_studied + 1
      total_incorrect_streak := r.total_incorrect_streak + 1
      total_correct_streak := 0
      num_times_studied := r.num_times_studied + 1
      date_last_studied := some now }

/-- Modelled from the spec: the due-query `isDue(record, now)` of spec
section 4.2, missing from the source: true iff the record was never studied or
`now` has reached `lastStudiedAt + intervalDays`. -/
def isDue (r : ProgressRecord) (now : Nat) : Bool :=
  match r.date_last_studied with
  | none => true
  | some t => decide (t + r.interval ≤ now)

/-- A finite review history applied through `update`: each element is an
outcome together with the timestamp of that review. -/
def applyOps (r : ProgressRecord) (ops : List (Bool × Nat)) : ProgressRecord :=
  ops.foldl (fun s o => update s o.1 o.2) r

/-- The ProgressStore's in-memory state: a mapping from CardId to
ProgressRecord, modelled as a partial function. -/
def Store : Type := Nat → Option ProgressRecord

/-- One step of `bootstrap` for a single id: an id already present is left
untouched, an absent id receives a fresh initial record. -/
def bootstrapStep (m : Store) (cid : Nat) : Store :=
  match m cid with
  | some _ => m
  | none => fun k => if k = cid then some (create_progress_entry cid) else m k

/-- Modelled from the spec: the ProgressStore `bootstrap` operation of spec
section 4.1, missing from the source: for every id of the sequence not already
present, create a fresh ProgressRecord with the initial-state values; existing
records are left untouched; the full resulting mapping is returned. -/
def bootstrap (m : Store) (ids : List Nat) : Store :=
  ids.foldl bootstrapStep m

/-- Durable content of the file written by `save_json` of
`flashcard_generation/add_ids_and_progress.py` lines 17-20, indexed by the
number of completed I/O steps.  The source opens the target path directly with
mode w — which truncates the file at once — and then dumps the serialized
data into it; there is no temp-file-then-rename step.  Step 0: nothing has
happened, the prior durable content stands.  Step 1: the open has completed,
the file is truncated to empty.  Step 2: the dump has completed, the file
holds the new serialization.  An I/O failure after k completed steps leaves
the durable state at index k. -/
def save_json_steps (prior : Option String) (data : String) : Nat → Option String :=
  fun k => if k = 0 then prior else if k = 1 then some ("") else some data

/-- A JSON scalar as far as the id-assignment pass needs one. -/
inductive JVal where
  | jstr : String → JVal
  | jnum : Nat → JVal
deriving DecidableEq

/-- A flashcard as a JSON object: a mapping from keys to values, modelled by
its lookup function. -/
def Card : Type := String → Option JVal

/-- The dict literal of `main` line 54, with Python merge semantics: in
a dict display the later entries win, so a key present in `card` keeps the
card's value and only an absent id key receives the assigned value `i`. -/
def card_with_id (i : Nat) (card : Card) : Card :=
  fun k =>
    match card k with
    | some v => some v
    | none => if k = "id" then some (JVal.jnum i) else none

/-- The loop of `main` lines 53-60, carrying the 1-based counter of
`enumerate(flashcards, 1)`: each card is paired with its id and a matching
progress entry is created. -/
def add_ids_loop : Nat → List Card → List Card × List ProgressRecord
  | _, [] => ([], [])
  | i, c :: rest =>
    (card_with_id i c :: (add_ids_loop (i + 1) rest).1,
     create_progress_entry i :: (add_ids_loop (i + 1) rest).2)

/-- The id-assignment pass of `main`: the loop started at counter 1. -/
def add_ids (cards : List Card) : List Card × List ProgressRecord :=
  add_ids_loop 1 cards

/-- Spec scenario C input: a record with repetition streak 5, interval 20 and
ease factor 2.5 about to receive a further correct answer. -/
def scenarioC : ProgressRecord :=
  { id := 3
    date_last_studied := some 0
    num_times_studied := 5
    ease_factor := 2.5
    interval := 20
    repetitions := 5
    total_correct := 5
    total_incorrect := 0
    total_studied := 5
    total_correct_streak := 5
    total_incorrect_streak := 0 }

/-- Spec scenario D input: a record with repetition streak 6, interval 50 and
ease factor 2.5 about to receive an incorrect answer. -/
def scenarioD : ProgressRecord :=
  { id := 4
    date_last_studied := some 0
    num_times_studied := 6
    ease_factor := 2.5
    interval := 50
    repetitions := 6
    total_correct := 6
    total_incorrect := 0
    total_studied := 6
    total_correct_streak := 6
    total_incorrect_streak := 0 }

/-- A concrete store holding one already-updated record under id 1 and
nothing else. -/
def store0 : Store := fun n =>
  if n = 1 then some (update (create_progress_entry 1) true 3) else none

/-- A concrete flashcard that already carries an id key with value 99. -/
def card_with_own_id : Card := fun k => if k = "id" then some (JVal.jnum 99) else none

/-- A concrete flashcard with no keys at all. -/
def blank_card : Card := fun _ => none

/-- C1: on a correct answer `update` recomputes the interval as 1 when the new
repetition streak is 1, as 6 when it is 2, and as the rounding of the previous
interval times the ease factor otherwise; in particular the record with
repetition streak 5, interval 20 and ease factor 2.5 answered correctly ends
with interval 50 and repetition streak 6. -/
theorem update_correct_interval_policy :
    (∀ (r : ProgressRecord) (now : Nat),
      (update r true now).repetitions = r.repetitions + 1 ∧
      (update r true now).interval =
        (if r.repetitions + 1 = 1 then 1
         else if r.repetitions + 1 = 2 then 6
         else (roundq ((r.interval : ℚ) * r.ease_factor)).toNat)) ∧
    (update scenarioC true 7).interval = 50 ∧
    (update scenarioC true 7).repetitions = 6 := by
  refine ⟨fun r now => ⟨by simp [update], by simp [update]⟩, ?_, by simp [update, scenarioC]⟩
  simp [update, scenarioC, roundq]
  norm_num
  rfl

/-- C2: on an incorrect answer `update` resets the repetition streak to 0,
forces the interval to 1, swaps the streak counters and lowers the ease factor
by the fixed penalty 0.2 clamped to the minimum ease 1.3; in particular the
record with repetition streak 6, interval 50 and ease factor 2.5 answered
incorrectly ends with streak 0, interval 1, ease factor 2.3, incorrect streak
1 and correct streak 0. -/
theorem update_incorrect_resets :
    (∀ (r : ProgressRecord) (now : Nat),
      (update r false now).repetitions = 0 ∧
      (update r false now).interval = 1 ∧
      (update r false now).total_incorrect_streak = r.total_incorrect_streak + 1 ∧
      (update r false now).total_correct_streak = 0 ∧
      (update r false now).ease_factor = max minEase (r.ease_factor - 0.2) ∧
      minEase ≤ (update r false now).ease_factor) ∧
    minEase = 1.3 ∧
    (update scenarioD false 9).repetitions = 0 ∧
    (update scenarioD false 9).interval = 1 ∧
    (update scenarioD false 9).ease_factor = 2.3 ∧
    (update scenarioD false 9).total_incorrect_streak = 1 ∧
    (update scenarioD false 9).total_correct_streak = 0 := by
  refine ⟨fun r now => ⟨by simp [update], by simp [update], by simp [update],
      by simp [update], by simp [update], by simp [update]⟩,
    rfl, by simp [update, scenarioD], by simp [update, scenarioD], ?_,
    by simp [update, scenarioD], by simp [update, scenarioD]⟩
  simp [update, scenarioD, minEase]
  norm_num

/-- C3: the freshly created progress record of any card id has ease factor
2.5, interval 1, repetition streak 0, zero study counters, no last-studied
timestamp and both streak counters at 0. -/
theorem create_progress_entry_initial_state :
    ∀ cid : Nat,
      (create_progress_entry cid).id = cid ∧
      (create_progress_entry cid).ease_factor = 2.5 ∧
      (create_progress_entry cid).interval = 1 ∧
      (create_progress_entry cid).repetitions = 0 ∧
      (create_progress_entry cid).num_times_studied = 0 ∧
      (create_progress_entry cid).date_last_studied = none ∧
      (create_progress_entry cid).total_correct = 0 ∧
      (create_progress_entry cid).total_incorrect = 0 ∧
      (create_progress_entry cid).total_studied = 0 ∧
      (create_progress_entry cid).total_correct_streak = 0 ∧
      (create_progress_entry cid).total_incorrect_streak = 0 :=
  fun _ => ⟨rfl, rfl, rfl, rfl, rfl, rfl, rfl, rfl, rfl, rfl, rfl⟩

theorem update_ease_lb (r : ProgressRecord) (b : Bool) (t : Nat) :
    minEase ≤ (update r b t).ease_factor := by
  cases b <;> simp [update]

theorem update_interval_lb (r : ProgressRecord) (b : Bool) (t : Nat)
    (he : minEase ≤ r.ease_factor) (hi : 1 ≤ r.interval) :
    1 ≤ (update r b t).interval := by
  cases b with
  | false => simp [update]
  | true =>
    show 1 ≤ (if r.repetitions + 1 = 1 then 1
      else if r.repetitions + 1 = 2 then 6
      else (roundq ((r.interval : ℚ) * r.ease_factor)).toNat)
    split_ifs with h1 h2
    · exact le_refl 1
    · norm_num
    · have hq1 : (1 : ℚ) ≤ (r.interval : ℚ) := by exact_mod_cast hi
      have hq2 : (1 : ℚ) ≤ r.ease_factor := le_trans (by norm_num [minEase]) he
      have hq3 : (1 : ℚ) ≤ (r.interval : ℚ) * r.ease_factor := by nlinarith
      have hz : (1 : ℤ) ≤ roundq ((r.interval : ℚ) * r.ease_factor) := by
        rw [roundq, Int.le_floor]
        push_cast
        linarith
      omega

/-- C4: starting from any record within the data-model domain (ease factor at
least 1.3, interval at least 1), every finite sequence of `update` calls with
any mix of outcomes keeps the ease factor at least 1.3 and the interval at
least 1. -/
theorem update_sequences_preserve_bounds :
    ∀ r : ProgressRecord, (1.3 : ℚ) ≤ r.ease_factor → 1 ≤ r.interval →
      ∀ ops : List (Bool × Nat),
        (1.3 : ℚ) ≤ (applyOps r ops).ease_factor ∧ 1 ≤ (applyOps r ops).interval := by
  have hm : minEase = (1.3 : ℚ) := rfl
  intro r he hi ops
  induction ops generalizing r with
  | nil => exact ⟨he, hi⟩
  | cons o rest ih =>
    have he' : (1.3 : ℚ) ≤ (update r o.1 o.2).ease_factor := hm ▸ update_ease_lb r o.1 o.2
    have hi' : 1 ≤ (update r o.1 o.2).interval :=
      update_interval_lb r o.1 o.2 (hm ▸ he) hi
    exact ih (update r o.1 o.2) he' hi'

theorem update_sequences_preserve_bounds_witness :
    (1.3 : ℚ) ≤ (applyOps (create_progress_entry 1) [(true, 0), (false, 1)]).ease_factor ∧
    1 ≤ (applyOps (create_progress_entry 1) [(true, 0), (false, 1)]).interval :=
  update_sequences_preserve_bounds (create_progress_entry 1)
    (by norm_num [create_progress_entry]) (by decide) [(true, 0), (false, 1)]

/-- C5: the redundant counter identity totalStudied = totalCorrect +
totalIncorrect holds for the freshly created record and is preserved by
`update` whatever the outcome. -/
theorem total_studied_partition :
    (∀ cid : Nat,
      (create_progress_entry cid).total_studied =
        (create_progress_entry cid).total_correct + (create_progress_entry cid).total_incorrect) ∧
    (∀ (r : ProgressRecord) (b : Bool) (t : Nat),
      r.total_studied = r.total_correct + r.total_incorrect →
      (update r b t).total_studied =
        (update r b t).total_correct + (update r b t).total_incorrect) :=
  ⟨fun _ => rfl, fun r b t h => by cases b <;> simp [update] <;> omega⟩

theorem total_studied_partition_witness :
    (update (create_progress_entry 1) true 0).total_studied =
      (update (create_progress_entry 1) true 0).total_correct +
        (update (create_progress_entry 1) true 0).total_incorrect :=
  total_studied_partition.2 (create_progress_entry 1) true 0 rfl

theorem streaks_both_zero_at_creation :
    ¬ (((create_progress_entry 1).total_correct_streak ≠ 0 ∧
        (create_progress_entry 1).total_incorrect_streak = 0) ∨
       ((create_progress_entry 1).total_correct_streak = 0 ∧
        (create_progress_entry 1).total_incorrect_streak ≠ 0)) := by decide

theorem update_streak_excl (r : ProgressRecord) (b : Bool) (t : Nat) :
    (0 < (update r b t).total_correct_streak → (update r b t).total_incorrect_streak = 0) ∧
    (0 < (update r b t).total_incorrect_streak → (update r b t).total_correct_streak = 0) := by
  cases b <;> simp [update]

theorem applyOps_streak_excl (ops : List (Bool × Nat)) :
    ∀ r : ProgressRecord,
      ((0 < r.total_correct_streak → r.total_incorrect_streak = 0) ∧
       (0 < r.total_incorrect_streak → r.total_correct_streak = 0)) →
      (0 < (applyOps r ops).total_correct_streak →
        (applyOps r ops).total_incorrect_streak = 0) ∧
      (0 < (applyOps r ops).total_incorrect_streak →
        (applyOps r ops).total_correct_streak = 0) := by
  induction ops with
  | nil => exact fun r h => h
  | cons o rest ih =>
    intro r _
    exact ih (update r o.1 o.2) (update_streak_excl r o.1 o.2)

/-- C6 (amended): for every record reachable by creation followed by any
sequence of updates, a positive correct streak forces the incorrect streak to
0 and vice versa — at most one of the two streak counters is nonzero; the
freshly created record has both at 0, so the two counters are never both
positive. -/
theorem streak_exclusivity_reachable :
    ∀ (cid : Nat) (ops : List (Bool × Nat)),
      (0 < (applyOps (create_progress_entry cid) ops).total_correct_streak →
        (applyOps (create_progress_entry cid) ops).total_incorrect_streak = 0) ∧
      (0 < (applyOps (create_progress_entry cid) ops).total_incorrect_streak →
        (applyOps (create_progress_entry cid) ops).total_correct_streak = 0) :=
  fun cid ops =>
    applyOps_streak_excl ops (create_progress_entry cid)
      ⟨fun _ => rfl, fun _ => rfl⟩

theorem streak_exclusivity_reachable_witness :
    0 < (applyOps (create_progress_entry 1) [(true, 0)]).total_correct_streak ∧
    (applyOps (create_progress_entry 1) [(true, 0)]).total_incorrect_streak = 0 :=
  ⟨by decide, (streak_exclusivity_reachable 1 [(true, 0)]).1 (by decide)⟩

theorem bootstrapStep_some {m : Store} {cid k : Nat} {r : ProgressRecord}
    (h : m k = some r) : bootstrapStep m cid k = some r := by
  unfold bootstrapStep
  cases hm : m cid with
  | some v => exact h
  | none =>
    by_cases hk : k = cid
    · rw [hk] at h; rw [hm] at h; cases h
    · simp [hk, h]

theorem bootstrap_some : ∀ (ids : List Nat) (m : Store) (k : Nat) (r : ProgressRecord),
    m k = some r → bootstrap m ids k = some r := by
  intro ids
  induction ids with
  | nil => intro m k r h; exact h
  | cons j rest ih => intro m k r h; exact ih (bootstrapStep m j) k r (bootstrapStep_some h)

theorem bootstrap_not_mem : ∀ (ids : List Nat) (m : Store) (k : Nat),
    k ∉ ids → bootstrap m ids k = m k := by
  intro ids
  induction ids with
  | nil => intro m k _; rfl
  | cons j rest ih =>
    intro m k hk
    have hkj : k ≠ j := fun h => hk (h ▸ List.mem_cons_self _ _)
    have hkr : k ∉ rest := fun h => hk (List.mem_cons_of_mem _ h)
    have hstep : bootstrapStep m j k = m k := by
      unfold bootstrapStep
      cases hm : m j with
      | some v => rfl
      | none => simp [hkj]
    calc bootstrap m (j :: rest) k = bootstrap (bootstrapStep m j) rest k := rfl
    _ = bootstrapStep m j k := ih (bootstrapStep m j) k hkr
    _ = m k := hstep

theorem bootstrap_creates : ∀ (ids : List Nat) (m : Store) (k : Nat),
    m k = none → k ∈ ids → bootstrap m ids k = some (create_progress_entry k) := by
  intro ids
  induction ids with
  | nil => intro m k _ hmem; cases hmem
  | cons j rest ih =>
    intro m k hnone hmem
    by_cases hkj : k = j
    · subst hkj
      have hstep : bootstrapStep m k k = some (create_progress_entry k) := by
        unfold bootstrapStep
        rw [hnone]
        simp
      exact bootstrap_some rest (bootstrapStep m k) k (create_progress_entry k) hstep
    · have hmem' : k ∈ rest := by
        cases hmem with
        | head => exact absurd rfl hkj
        | tail _ hmem2 => exact hmem2
      cases hm : m j with
      | some v =>
        have hstep : bootstrapStep m j = m := by unfold bootstrapStep; rw [hm]
        show bootstrap (bootstrapStep m j) rest k = some (create_progress_entry k)
        rw [hstep]
        exact ih m k hnone hmem'
      | none =>
        have hstep : bootstrapStep m j k = none := by
          unfold bootstrapStep
          rw [hm]
          simp [hkj, hnone]
        exact ih (bootstrapStep m j) k hstep hmem'

/-- C7: `bootstrap` keeps every already-present record unchanged, creates a
fresh initial record exactly for the absent ids of the sequence, leaves ids
outside the sequence alone, and running it a second time with the same id
sequence changes nothing. -/
theorem bootstrap_idempotent_fresh_only :
    ∀ (m : Store) (ids : List Nat),
      (∀ (k : Nat) (r : ProgressRecord), m k = some r → bootstrap m ids k = some r) ∧
      (∀ k : Nat, m k = none → k ∈ ids →
        bootstrap m ids k = some (create_progress_entry k)) ∧
      (∀ k : Nat, k ∉ ids → bootstrap m ids k = m k) ∧
      bootstrap (bootstrap m ids) ids = bootstrap m ids := by
  intro m ids
  refine ⟨fun k r h => bootstrap_some ids m k r h,
    fun k h hmem => bootstrap_creates ids m k h hmem,
    fun k h => bootstrap_not_mem ids m k h, ?_⟩
  funext k
  cases h : bootstrap m ids k with
  | some r => exact bootstrap_some ids (bootstrap m ids) k r h
  | none =>
    have hk : k ∉ ids := by
      intro hmem
      cases hm : m k with
      | some r => rw [bootstrap_some ids m k r hm] at h; cases h
      | none => rw [bootstrap_creates ids m k hm hmem] at h; cases h
    rw [bootstrap_not_mem ids (bootstrap m ids) k hk, h]

theorem bootstrap_idempotent_fresh_only_witness :
    bootstrap store0 [1, 2] 1 = some (update (create_progress_entry 1) true 3) ∧
    bootstrap store0 [1, 2] 2 = some (create_progress_entry 2) ∧
    bootstrap store0 [1, 2] 5 = store0 5 ∧
    bootstrap (bootstrap store0 [1, 2]) [1, 2] = bootstrap store0 [1, 2] := by
  obtain ⟨h1, h2, h3, h4⟩ := bootstrap_idempotent_fresh_only store0 [1, 2]
  exact ⟨h1 1 (update (create_progress_entry 1) true 3) rfl,
    h2 2 rfl (by decide), h3 5 (by decide), h4⟩

/-- C8: `isDue` returns true exactly when the record was never studied or the
current day has reached the last-studied day plus the interval; on a
never-studied record it is true whatever the current day. -/
theorem isDue_characterization :
    ∀ (r : ProgressRecord) (now : Nat),
      (isDue r now = true ↔
        r.date_last_studied = none ∨
          ∃ t, r.date_last_studied = some t ∧ t + r.interval ≤ now) ∧
      (r.date_last_studied = none → isDue r now = true) := by
  intro r now
  cases h : r.date_last_studied with
  | none => simp [isDue, h]
  | some t => simp [isDue, h]

theorem isDue_characterization_witness :
    isDue (create_progress_entry 1) 0 = true :=
  (isDue_characterization (create_progress_entry 1) 0).2 rfl

theorem save_json_truncation_cex :
    1 < 2 ∧
    save_json_steps (some ("prior")) ("new") 1 = some ("") ∧
    save_json_steps (some ("prior")) ("new") 1 ≠ some ("prior") := by
  refine ⟨by norm_num, rfl, ?_⟩
  intro h
  simp [save_json_steps] at h

/-- C9 (amended): `save_json` writes the target file in place, so only a
failure that happens before the open leaves the prior durable content intact;
once the open has completed the file is truncated to empty, and only when the
dump completes does it hold the new data — a failure between open and dump
loses the previously persisted collection. -/
theorem save_json_steps_trajectory :
    ∀ (prior : Option String) (data : String),
      save_json_steps prior data 0 = prior ∧
      save_json_steps prior data 1 = some ("") ∧
      save_json_steps prior data 2 = some data :=
  fun _ _ => ⟨rfl, rfl, rfl⟩

theorem add_ids_loop_len_cards : ∀ (cards : List Card) (j : Nat),
    (add_ids_loop j cards).1.length = cards.length := by
  intro cards
  induction cards with
  | nil => intro j; rfl
  | cons c rest ih => intro j; simp [add_ids_loop, ih]

theorem add_ids_loop_len_progress : ∀ (cards : List Card) (j : Nat),
    (add_ids_loop j cards).2.length = cards.length := by
  intro cards
  induction cards with
  | nil => intro j; rfl
  | cons c rest ih => intro j; simp [add_ids_loop, ih]

theorem add_ids_loop_get_card : ∀ (cards : List Card) (j i : Nat),
    (add_ids_loop j cards).1.get? i = (cards.get? i).map (fun c => card_with_id (j + i) c) := by
  intro cards
  induction cards with
  | nil => intro j i; rfl
  | cons c rest ih =>
    intro j i
    cases i with
    | zero => simp [add_ids_loop]
    | succ n =>
      have harith : j + (n + 1) = j + 1 + n := by omega
      show (add_ids_loop (j + 1) rest).1.get? n =
        (rest.get? n).map (fun c => card_with_id (j + (n + 1)) c)
      rw [harith]
      exact ih (j + 1) n

theorem add_ids_loop_get_progress : ∀ (cards : List Card) (j i : Nat),
    (add_ids_loop j cards).2.get? i =
      (cards.get? i).map (fun _ => create_progress_entry (j + i)) := by
  intro cards
  induction cards with
  | nil => intro j i; rfl
  | cons c rest ih =>
    intro j i
    cases i with
    | zero => simp [add_ids_loop]
    | succ n =>
      have harith : j + (n + 1) = j + 1 + n := by omega
      show (add_ids_loop (j + 1) rest).2.get? n =
        (rest.get? n).map (fun _ => create_progress_entry (j + (n + 1)))
      rw [harith]
      exact ih (j + 1) n

theorem preexisting_id_overrides_cex :
    ((add_ids [card_with_own_id]).1.get? 0).map (fun c => c ("id")) =
      some (some (JVal.jnum 99)) ∧
    (some (some (JVal.jnum 99)) : Option (Option JVal)) ≠ some (some (JVal.jnum 1)) := by
  exact ⟨rfl, by decide⟩

/-- C10 (amended): the id-assignment pass produces exactly as many flashcards
with ids and exactly as many progress entries as there are input flashcards;
the i-th progress entry always carries id i (1-based), so the progress ids are
positive, unique and contiguous from 1 to n; the i-th flashcard receives id i
provided it does not already contain an id key, since the dict merge lets a
pre-existing id value of the card override the assigned one. -/
theorem add_ids_assigns_sequential_ids :
    ∀ cards : List Card,
      (add_ids cards).1.length = cards.length ∧
      (add_ids cards).2.length = cards.length ∧
      (∀ i : Nat, ((add_ids cards).2.get? i).map ProgressRecord.id =
        (cards.get? i).map (fun _ => i + 1)) ∧
      (∀ (i : Nat) (c : Card), cards.get? i = some c → c ("id") = none →
        ((add_ids cards).1.get? i).map (fun d => d ("id")) =
          some (some (JVal.jnum (i + 1)))) := by
  intro cards
  refine ⟨add_ids_loop_len_cards cards 1, add_ids_loop_len_progress cards 1, ?_, ?_⟩
  · intro i
    rw [add_ids, add_ids_loop_get_progress]
    cases h : cards.get? i with
    | none => rfl
    | some c => simp [create_progress_entry, Nat.add_comm]
  · intro i c hc hid
    rw [add_ids, add_ids_loop_get_card, hc]
    simp [card_with_id, hid, Nat.add_comm]

theorem add_ids_assigns_sequential_ids_witness :
    ((add_ids [blank_card]).1.get? 0).map (fun d => d ("id")) =
      some (some (JVal.jnum 1)) :=
  (add_ids_assigns_sequential_ids [blank_card]).2.2.2 0 blank_card rfl rfl

end JapaneseStudy
